import Mathlib

/-!
Verification of the smstools-http-api modem/spool core (src/api/__init__.py).

The Python source is shallowly embedded: pure helpers become Lean functions,
the serial channel and the reset-timestamp file become explicit data that is
passed in and returned, and Python truthiness/exception control flow becomes
explicit case analysis.  Strings manipulated character-wise in the source are
modelled as `List Char`; byte payloads as `List Nat`.
-/

namespace SmsApi

/-! ## StatusParser (src lines 21-22, 80-95)

`CSQ_REGEX = re.compile(r'\+CSQ: (\d{1,2}),')` and
`CREG_REGEX = re.compile(r'\+CREG: (\d),\d')`, used with `.match` (anchored
at the start of the string, arbitrary trailing text allowed). -/

/-- The part of `CSQ_REGEX` after the literal `+CSQ: `: the greedy
`(\d{1,2}),` first tries two digits followed by `,`, then backtracks to one
digit followed by `,`. Returns the captured digit characters. -/
def csqCaptureTail : List Char → Option (List Char)
  | c1 :: c2 :: c3 :: _ =>
    if c1.isDigit && c2.isDigit && c3 == ',' then some [c1, c2]
    else if c1.isDigit && c2 == ',' then some [c1]
    else none
  | [c1, c2] => if c1.isDigit && c2 == ',' then some [c1] else none
  | _ => none

/-- The capture group of `CSQ_REGEX.match` (anchored at the start, trailing
text allowed). -/
def csqCapture (s : String) : Option (List Char) :=
  match s.toList with
  | '+' :: 'C' :: 'S' :: 'Q' :: ':' :: ' ' :: rest => csqCaptureTail rest
  | _ => none

/-- The part of `CREG_REGEX` after the literal `+CREG: `: `(\d),\d` — a
captured digit, a comma, and another digit. -/
def cregCaptureTail : List Char → Option Char
  | c1 :: c2 :: c3 :: _ =>
    if c1.isDigit && c2 == ',' && c3.isDigit then some c1 else none
  | _ => none

/-- The capture group of `CREG_REGEX.match`. -/
def cregCapture (s : String) : Option Char :=
  match s.toList with
  | '+' :: 'C' :: 'R' :: 'E' :: 'G' :: ':' :: ' ' :: rest => cregCaptureTail rest
  | _ => none

/-- Python `int()` on a non-empty string of decimal digits. -/
def intOfDigits (ds : List Char) : Int :=
  ds.foldl (fun a c => 10 * a + ((c.toNat : Int) - 48)) 0

/-- `parse_csq` (src 80-86): 0 when the regex does not match, otherwise the
captured 1-2 digit integer (`int(csq_match.group(1) or 0)`; the group is
never empty when the regex matched). -/
def parse_csq (s : String) : Int :=
  match csqCapture s with
  | none => 0
  | some ds => intOfDigits ds

/-- `parse_creg` (src 89-95): -1 when the regex does not match, otherwise the
captured single digit. -/
def parse_creg (s : String) : Int :=
  match cregCapture s with
  | none => -1
  | some c => (c.toNat : Int) - 48

/-! ## MessageEncoder (src 186-195, inside `write_sms`)

`sms['text'].encode('us-ascii')` succeeds exactly when every character has a
code point below 128; on `UnicodeEncodeError` the UCS2 branch runs
(`encode('utf-16-be')`).  `msg_len = len(sms['text'])` counts characters.
Python 2 integer division `/` is floor division, and `True`/`False` count as
`1`/`0` when added. -/

/-- Whether every character of the text fits the `us-ascii` codec. -/
def isAsciiText (text : String) : Bool :=
  text.toList.all (fun c => c.toNat ≤ 127)

/-- UTF-16 big-endian bytes of one character (surrogate pair above U+FFFF). -/
def utf16beChar (c : Char) : List Nat :=
  let n := c.toNat
  if n < 65536 then [n / 256, n % 256]
  else
    let m := n - 65536
    let hi := 55296 + m / 1024
    let lo := 56320 + m % 1024
    [hi / 256, hi % 256, lo / 256, lo % 256]

/-- The encoded message bytes: `text.encode('us-ascii')` when representable,
otherwise `text.encode('utf-16-be')`. -/
def sms_msg (text : String) : List Nat :=
  if isAsciiText text then text.toList.map Char.toNat
  else (text.toList.map utf16beChar).flatten

/-- Whether the `Alphabet: UCS` header is used (`ucs_field` set in the
`except UnicodeEncodeError` branch, src 191-192). -/
def sms_ucs (text : String) : Bool := !isAsciiText text

/-- One iteration's update of `parts_count` (src 187-195): starting from the
current value `p`, reassigned only when the length exceeds the alphabet's
single-segment capacity, via `msg_len / N + (msg_len % N > 0)`. -/
def sms_parts_step (text : String) (p : Nat) : Nat :=
  let L := text.length
  if isAsciiText text then
    if L > 160 then L / 153 + (if L % 153 > 0 then 1 else 0) else p
  else
    if L > 70 then L / 67 + (if L % 67 > 0 then 1 else 0) else p

/-- The `parts_count` computed for a message (the value after one encode of
the text with the initial `parts_count = 1`). -/
def sms_parts (text : String) : Nat := sms_parts_step text 1

/-! ## ModemChannel (src 42-77, `get_creg` / `get_csq`)

A channel invocation either fails to take the device lock
(`filelock.Timeout`), hits a serial I/O error (`serial.SerialException`), or
succeeds and reads successive lines from the device.  A read past the end of
the available lines models `readline` returning the empty string on the
serial timeout. -/

inductive ChannelOutcome where
  | lockTimeout : ChannelOutcome
  | ioError : ChannelOutcome
  | success : List String → ChannelOutcome

/-- A Python value as returned from the channel: the failure sentinels are
the integer `0` (`get_csq`) and `None` (`get_creg`); a successful read
returns the reply line (a byte string). -/
inductive PyVal where
  | pyInt : Int → PyVal
  | pyNone : PyVal
  | pyStr : String → PyVal
deriving DecidableEq

/-- One `device.readline()`: the next available line, or `""` when the serial
read times out with nothing buffered. -/
def readline1 (ls : List String) : String × List String :=
  (ls.headD "", ls.tail)

/-- Truthiness of `line.strip()` as used in `if not ok`: true exactly when
the line holds a non-whitespace character. -/
def pyTruthyStripped (s : String) : Bool :=
  s.toList.any (fun c => !c.isWhitespace)

/-- Whether a reply line is an echo of the command (`startswith(b'AT')`). -/
def startsWithAT (s : String) : Bool :=
  match s.toList with
  | 'A' :: 'T' :: _ => true
  | _ => false

/-- `get_csq` (src 61-77): on lock timeout or serial error return the
sentinel `(0, False)`; on success read a line, discard it if it echoes the
command, and return the reply together with the truthiness of the stripped
status line. -/
def get_csq : ChannelOutcome → PyVal × Bool
  | .lockTimeout => (.pyInt 0, false)
  | .ioError => (.pyInt 0, false)
  | .success lines =>
    let (l1, r1) := readline1 lines
    let (csq, r2) := if startsWithAT l1 then readline1 r1 else (l1, r1)
    let (okLine, _) := readline1 r2
    (.pyStr csq, pyTruthyStripped okLine)

/-- `get_creg` (src 42-58): identical control flow to `get_csq` but with the
sentinel `(None, False)`. -/
def get_creg : ChannelOutcome → PyVal × Bool
  | .lockTimeout => (.pyNone, false)
  | .ioError => (.pyNone, false)
  | .success lines =>
    let (l1, r1) := readline1 lines
    let (creg, r2) := if startsWithAT l1 then readline1 r1 else (l1, r1)
    let (okLine, _) := readline1 r2
    (.pyStr creg, pyTruthyStripped okLine)

/-- The string payload of a channel value as handed to the parsers.  The
parsers are only ever reached when `ok` was truthy, in which case the value
is a `pyStr`; the sentinel cases are unreachable there. -/
def pyToStr : PyVal → String
  | .pyStr s => s
  | _ => ""

/-! ## ResetGovernor (src 98-139)

The timestamp file's observable states: absent, present but not parsable as
a float (including the empty file left behind by `open(..., 'w')`), or
holding a number.  Time values are modelled as rationals.  `reset_modem`
reads the clock twice (`now = time.time()` at entry, `time.time()` again for
the value written), so the model takes both readings; the lock availability
inside `perform_reset` is a boolean input.  The result is the new file
state, the number of `perform_reset` invocations, and the number of actual
reset-script launches (`subprocess.Popen`, which happens only when the lock
was obtained). -/

inductive FileState where
  | missing : FileState
  | unparsable : FileState
  | number : ℚ → FileState
deriving DecidableEq

/-- The `last` value computed in src 124-131: `0` for a freshly created
(missing) file, `0` when `float(...)` raises `ValueError`, else the number. -/
def read_last : FileState → ℚ
  | .missing => 0
  | .unparsable => 0
  | .number q => q

/-- `reset_modem` (src 118-139) together with `perform_reset` (src 109-115).
When `now - last > interval` it calls `perform_reset` (which launches the
reset script only when `lockOk`) and then unconditionally writes
`str(time.time())` — the second clock reading `now2` — into the file.
Otherwise the file content is untouched, except that a missing file has
already been created empty by `get_modem_reset_file` (src 98-106). -/
def reset_modem (interval now now2 : ℚ) (lockOk : Bool) (fs : FileState) :
    FileState × Nat × Nat :=
  let last := read_last fs
  if now - last > interval then
    (FileState.number now2, 1, if lockOk then 1 else 0)
  else
    (match fs with
     | .missing => FileState.unparsable
     | other => other, 0, 0)

/-! ## HealthEvaluator (src 326-348, `modem_status`)

The view's observable outcome: `some (message, 500)` for each error return,
`none` for the all-clear fall-through (the view produces no error object).
The boolean records whether `reset_modem` was invoked. -/

/-- `modem_status` over the two channel outcomes. -/
def modem_status (co ro : ChannelOutcome) : Option (String × Nat) × Bool :=
  if (get_csq co).2 = false then (some ("modem not available", 500), false)
  else
    let v := parse_csq (pyToStr (get_csq co).1)
    if ¬(10 ≤ v ∧ v < 99) then
      (some ("modem not connected or weak signal", 500), v == 99)
    else
      if (get_creg ro).2 = false then (some ("modem not available", 500), false)
      else
        let w := parse_creg (pyToStr (get_creg ro).1)
        if w ≠ 1 ∧ w ≠ 5 then (some ("registration problem", 500), false)
        else (none, false)

/-! ## SpoolWriter and `write_sms` (src 172-227)

File names are `List Char`.  `tempfile.mkstemp(dir=OUTGOING, prefix=PREFIX,
suffix='.LOCK')` yields `dir + '/' + pfx + u + '.LOCK'` for an OS-chosen
unique infix `u`; the model threads a supply of such infixes.  Python's
`s.split(sep)[0]` is the text before the first occurrence of `sep` (the
whole string when absent), and `s.split('/')[-1]` is the text after the
last `/`. -/

/-- Python `s.split(sep)[0]` for a non-empty separator. -/
def py_split_first (sep : List Char) : List Char → List Char
  | [] => []
  | c :: cs =>
    if sep.isPrefixOf (c :: cs) then []
    else c :: py_split_first sep cs

/-- Python `s.split('/')[-1]`: everything after the last slash. -/
def py_last_component (s : List Char) : List Char :=
  (s.reverse.takeWhile (fun c => c ≠ '/')).reverse

/-- `validate_mobile` (src 224-227): Python `str.isdigit`, true exactly for
a non-empty all-digit string. -/
def validate_mobile (m : List Char) : Bool :=
  !m.isEmpty && m.all Char.isDigit

/-- `access_mobile` (src 215-222) as its truthiness in `if access_mobile(...)`:
default-open when no `MOBILE_PERMS` table or no row for the user; with a row,
true exactly when the mobile is listed (the `None` return is falsy). -/
def access_mobile (perms : Option (List (List Char × List (List Char))))
    (user m : List Char) : Bool :=
  match perms with
  | none => true
  | some table =>
    match table.lookup user with
    | none => true
    | some allowed => allowed.contains m

/-- A file placed in the spool: the temporary name it was written under, the
final name it was renamed to, its content bytes, and its chmod mode. -/
structure SpoolFile where
  tmpName : List Char
  finalName : List Char
  content : List Nat
  mode : Nat
deriving DecidableEq

/-- The suffix handed to `mkstemp`. -/
def lockSuffix : List Char := ".LOCK".toList

/-- The header text written before the body (src 197-200): `From:` line, an
`Alphabet: UCS` line exactly when the UCS2 branch ran, `To:` line, and the
blank line separating headers from body. -/
def smsHeader (user mobile : List Char) (ucs : Bool) : List Char :=
  "From: ".toList ++ user ++ ['\n'] ++
  (if ucs then "Alphabet: UCS\n".toList else []) ++
  "To: ".toList ++ mobile ++ ['\n', '\n']

/-- One spooled message (src 184-206): build the `mkstemp` name, strip the
`.LOCK` suffix via `split('.LOCK')[0]` for the rename target, write header
plus encoded body, chmod `0666`, and derive the message id as
`msg_file.split('/')[-1]`. Returns the file record and the message id. -/
def spool_one (user mobile outgoingDir pfx u : List Char) (text : String) :
    SpoolFile × List Char :=
  let tmpName := outgoingDir ++ '/' :: (pfx ++ u ++ lockSuffix)
  let msg_file := py_split_first lockSuffix tmpName
  let content := (smsHeader user mobile (sms_ucs text)).map Char.toNat ++ sms_msg text
  ({ tmpName := tmpName, finalName := msg_file, content := content, mode := 438 },
   py_last_component msg_file)

/-- The observable result of `write_sms` (src 172-213): the `message_id`
dict as an ordered association list, the stray top-level `result[mobile]`
entries (`'Not valid'` markers, src 181), the files spooled, the echoed
text, and the final `parts_count`. -/
structure WriteResult where
  msgIds : List (List Char × List Char)
  topLevel : List (List Char × List Char)
  spooled : List SpoolFile
  sent_text : String
  parts_count : Nat
deriving DecidableEq

/-- The per-mobile loop of `write_sms` (src 178-210), threading the unique
temp-name supply and the running `parts_count`. -/
def write_sms_go (perms : Option (List (List Char × List (List Char))))
    (user outgoingDir pfx : List Char) (text : String) :
    List (List Char) → List (List Char) → Nat → WriteResult
  | [], _, p =>
    { msgIds := [], topLevel := [], spooled := [], sent_text := text, parts_count := p }
  | m :: ms, supply, p =>
    if validate_mobile m then
      if access_mobile perms user m then
        let f := (spool_one user m outgoingDir pfx (supply.headD []) text).1
        let mid := (spool_one user m outgoingDir pfx (supply.headD []) text).2
        let r := write_sms_go perms user outgoingDir pfx text ms supply.tail
          (sms_parts_step text p)
        { r with msgIds := (m, mid) :: r.msgIds, spooled := f :: r.spooled }
      else
        let r := write_sms_go perms user outgoingDir pfx text ms supply p
        { r with msgIds := (m, "Forbidden".toList) :: r.msgIds }
    else
      let r := write_sms_go perms user outgoingDir pfx text ms supply p
      { r with topLevel := (m, "Not valid".toList) :: r.topLevel }

/-- `write_sms` (src 172-213): run the loop with the initial
`parts_count = 1`. -/
def write_sms (perms : Option (List (List Char × List (List Char))))
    (user outgoingDir pfx : List Char) (text : String)
    (mobiles supply : List (List Char)) : WriteResult :=
  write_sms_go perms user outgoingDir pfx text mobiles supply 1

/-! ## Helper lemmas -/

theorem digit_toNat_bounds (c : Char) (h : c.isDigit = true) :
    48 ≤ c.toNat ∧ c.toNat ≤ 57 := by
  simp [Char.isDigit] at h
  exact ⟨h.1, h.2⟩

theorem csqCaptureTail_bounds (l ds : List Char) (h : csqCaptureTail l = some ds) :
    0 ≤ intOfDigits ds ∧ intOfDigits ds ≤ 99 := by
  match l with
  | [] => simp [csqCaptureTail] at h
  | [c1] => simp [csqCaptureTail] at h
  | [c1, c2] =>
    simp only [csqCaptureTail] at h
    split at h
    · rename_i hg
      simp only [Bool.and_eq_true, beq_iff_eq] at hg
      obtain ⟨h1, _⟩ := hg
      obtain ⟨a1, b1⟩ := digit_toNat_bounds c1 h1
      injection h with hds
      subst hds
      simp [intOfDigits]
      omega
    · simp at h
  | c1 :: c2 :: c3 :: rest =>
    simp only [csqCaptureTail] at h
    split at h
    · rename_i hg
      simp only [Bool.and_eq_true, beq_iff_eq] at hg
      obtain ⟨⟨h1, h2⟩, _⟩ := hg
      obtain ⟨a1, b1⟩ := digit_toNat_bounds c1 h1
      obtain ⟨a2, b2⟩ := digit_toNat_bounds c2 h2
      injection h with hds
      subst hds
      simp [intOfDigits]
      omega
    · split at h
      · rename_i hg
        simp only [Bool.and_eq_true, beq_iff_eq] at hg
        obtain ⟨h1, _⟩ := hg
        obtain ⟨a1, b1⟩ := digit_toNat_bounds c1 h1
        injection h with hds
        subst hds
        simp [intOfDigits]
        omega
      · simp at h

theorem parse_csq_bounds (s : String) : 0 ≤ parse_csq s ∧ parse_csq s ≤ 99 := by
  unfold parse_csq
  cases hc : csqCapture s with
  | none => simp
  | some ds =>
    unfold csqCapture at hc
    split at hc
    · exact csqCaptureTail_bounds _ _ hc
    · simp at hc

theorem parse_creg_bounds (s : String) : -1 ≤ parse_creg s ∧ parse_creg s ≤ 9 := by
  unfold parse_creg
  cases hc : cregCapture s with
  | none => simp
  | some c =>
    unfold cregCapture at hc
    split at hc
    · rename_i rest _
      match rest, hc with
      | c1 :: c2 :: c3 :: r, hc => ?_
      simp only [cregCaptureTail] at hc
      split at hc
      · rename_i hg
        simp only [Bool.and_eq_true, beq_iff_eq] at hg
        obtain ⟨⟨h1, _⟩, _⟩ := hg
        obtain ⟨a1, b1⟩ := digit_toNat_bounds c1 h1
        injection hc with hds
        subst hds
        change -1 ≤ (c1.toNat : Int) - 48 ∧ (c1.toNat : Int) - 48 ≤ 9
        omega
      · simp at hc
    · simp at hc

theorem parts_arith_153 (L : Nat) :
    L / 153 + (if L % 153 > 0 then 1 else 0) = (L + 152) / 153 := by
  split <;> omega

theorem parts_arith_67 (L : Nat) :
    L / 67 + (if L % 67 > 0 then 1 else 0) = (L + 66) / 67 := by
  split <;> omega

/-! ## Claim theorems -/

/-- C10: for every input string, `parse_csq` yields an integer in `[0, 99]`
(the capture is at most two decimal digits and a no-match yields 0) and
`parse_creg` yields an integer in `[-1, 9]`; in particular a `parse_csq`
result can reach the health check's upper bound 99 only as the exact value
99 (no value above 99 is possible). -/
theorem claim_C10_parser_ranges (s t : String) :
    0 ≤ parse_csq s ∧ parse_csq s ≤ 99 ∧
    (parse_csq s < 99 ∨ parse_csq s = 99) ∧
    -1 ≤ parse_creg t ∧ parse_creg t ≤ 9 := by
  obtain ⟨h1, h2⟩ := parse_csq_bounds s
  obtain ⟨h3, h4⟩ := parse_creg_bounds t
  exact ⟨h1, h2, by omega, h3, h4⟩

/-- C3: a text whose characters are all 7-bit representable is encoded in the
DEFAULT alphabet with `parts_count = 1` for length at most 160 and the exact
ceiling of `L/153` otherwise; a text with a non-7-bit character is encoded as
UCS2 with `parts_count = 1` for length at most 70 and the exact ceiling of
`L/67` otherwise.  The ceiling is stated both as the closed form
`(L + k - 1) / k` and by its characteristic inequalities. -/
theorem claim_C3_encoder_segments (text : String) :
    (isAsciiText text = true →
      sms_ucs text = false ∧
      (text.length ≤ 160 → sms_parts text = 1) ∧
      (160 < text.length →
        sms_parts text = (text.length + 152) / 153 ∧
        153 * (sms_parts text - 1) < text.length ∧
        text.length ≤ 153 * sms_parts text)) ∧
    (isAsciiText text = false →
      sms_ucs text = true ∧
      (text.length ≤ 70 → sms_parts text = 1) ∧
      (70 < text.length →
        sms_parts text = (text.length + 66) / 67 ∧
        67 * (sms_parts text - 1) < text.length ∧
        text.length ≤ 67 * sms_parts text)) := by
  constructor
  · intro h
    refine ⟨by simp [sms_ucs, h], ?_, ?_⟩
    · intro hle
      simp [sms_parts, sms_parts_step, h]
      omega
    · intro hgt
      have hp : sms_parts text =
          text.length / 153 + (if text.length % 153 > 0 then 1 else 0) := by
        simp [sms_parts, sms_parts_step, h, hgt]
      rw [hp, parts_arith_153]
      omega
  · intro h
    refine ⟨by simp [sms_ucs, h], ?_, ?_⟩
    · intro hle
      simp [sms_parts, sms_parts_step, h]
      omega
    · intro hgt
      have hp : sms_parts text =
          text.length / 67 + (if text.length % 67 > 0 then 1 else 0) := by
        simp [sms_parts, sms_parts_step, h, hgt]
      rw [hp, parts_arith_67]
      omega

set_option maxRecDepth 4000 in
/-- C3 witness: concrete instances of both branches — the 7-bit text
`"hello"` (DEFAULT, one part) and a 200-character 7-bit text (two parts),
plus a UCS2 text. -/
theorem claim_C3_encoder_segments_witness :
    (isAsciiText "hello" = true ∧ sms_parts "hello" = 1) ∧
    (isAsciiText (String.mk (List.replicate 200 'a')) = true ∧
      sms_parts (String.mk (List.replicate 200 'a')) = (200 + 152) / 153) ∧
    (isAsciiText "héllo" = false ∧ sms_ucs "héllo" = true) := by
  refine ⟨⟨by decide, ((claim_C3_encoder_segments "hello").1 (by decide)).2.1 (by decide)⟩,
    ⟨?_, ?_⟩, ⟨by decide, ((claim_C3_encoder_segments "héllo").2 (by decide)).1⟩⟩
  · decide
  · have h := ((claim_C3_encoder_segments (String.mk (List.replicate 200 'a'))).1
      (by decide)).2.2 (by decide)
    simpa using h.1

set_option maxRecDepth 8000 in
/-- C4 counterexample: a 7-bit text of 307 characters lies in the claimed
interval `(160, 313]` but gets `parts_count = 3 = ceil(307/153)`, not 2. -/
theorem claim_C4_two_parts_counterexample :
    isAsciiText (String.mk (List.replicate 307 'a')) = true ∧
    160 < (String.mk (List.replicate 307 'a')).length ∧
    (String.mk (List.replicate 307 'a')).length ≤ 313 ∧
    sms_parts (String.mk (List.replicate 307 'a')) = 3 ∧
    sms_parts (String.mk (List.replicate 307 'a')) ≠ 2 := by decide

/-- C4 (amended): for a 7-bit-representable text, `parts_count = 2` exactly
on the interval `(160, 306]` (two segments of 153 characters), not
`(160, 313]`. -/
theorem claim_C4_two_parts (text : String) (h : isAsciiText text = true)
    (h1 : 160 < text.length) (h2 : text.length ≤ 306) :
    sms_parts text = 2 := by
  simp [sms_parts, sms_parts_step, h, h1]
  split <;> omega

set_option maxRecDepth 4000 in
/-- C4 witness: a 200-character 7-bit text gets two parts. -/
theorem claim_C4_two_parts_witness :
    isAsciiText (String.mk (List.replicate 200 'a')) = true ∧
    160 < (String.mk (List.replicate 200 'a')).length ∧
    (String.mk (List.replicate 200 'a')).length ≤ 306 ∧
    sms_parts (String.mk (List.replicate 200 'a')) = 2 :=
  ⟨by decide, by decide, by decide,
    claim_C4_two_parts _ (by decide) (by decide) (by decide)⟩

/-- C8: a lock-acquisition timeout or a serial I/O error makes both channel
operations return their `(sentinel, False)` pair — integer `0` for the
signal-quality channel, `None` for the registration channel — rather than
letting the exception escape (the embedding's total return type records that
both exceptional paths end in a normal return). -/
theorem claim_C8_channel_failures (o : ChannelOutcome)
    (h : o = ChannelOutcome.lockTimeout ∨ o = ChannelOutcome.ioError) :
    get_csq o = (PyVal.pyInt 0, false) ∧ get_creg o = (PyVal.pyNone, false) := by
  rcases h with h | h <;> subst h <;> exact ⟨rfl, rfl⟩

/-- C8 witness: the lock-timeout outcome. -/
theorem claim_C8_channel_failures_witness :
    get_csq ChannelOutcome.lockTimeout = (PyVal.pyInt 0, false) ∧
    get_creg ChannelOutcome.lockTimeout = (PyVal.pyNone, false) :=
  claim_C8_channel_failures ChannelOutcome.lockTimeout (Or.inl rfl)

/-- C1: when the signal-quality channel reports ok with a parsed CSQ in
`[10, 99)` and the registration channel reports ok with a parsed CREG of 1
or 5, `modem_status` falls through every error branch: it produces no error
object and no reset — the all-clear outcome the spec reads as the empty
success response. -/
theorem claim_C1_all_clear (co ro : ChannelOutcome)
    (h1 : (get_csq co).2 = true)
    (h2 : 10 ≤ parse_csq (pyToStr (get_csq co).1))
    (h3 : parse_csq (pyToStr (get_csq co).1) < 99)
    (h4 : (get_creg ro).2 = true)
    (h5 : parse_creg (pyToStr (get_creg ro).1) = 1 ∨
          parse_creg (pyToStr (get_creg ro).1) = 5) :
    modem_status co ro = (none, false) := by
  unfold modem_status
  rw [h1, h4]
  simp only [Bool.true_eq_false, if_false]
  rw [if_neg (not_not.mpr ⟨h2, h3⟩)]
  rw [if_neg (by rcases h5 with h5 | h5 <;> simp [h5])]

/-- C1 witness: concrete healthy channel replies (`+CSQ: 20,5` and
`+CREG: 1,0`, each followed by an `OK` status line). -/
theorem claim_C1_all_clear_witness :
    (get_csq (ChannelOutcome.success ["+CSQ: 20,5", "OK"])).2 = true ∧
    parse_csq (pyToStr (get_csq (ChannelOutcome.success ["+CSQ: 20,5", "OK"])).1) = 20 ∧
    (get_creg (ChannelOutcome.success ["+CREG: 1,0", "OK"])).2 = true ∧
    parse_creg (pyToStr (get_creg (ChannelOutcome.success ["+CREG: 1,0", "OK"])).1) = 1 ∧
    modem_status (ChannelOutcome.success ["+CSQ: 20,5", "OK"])
      (ChannelOutcome.success ["+CREG: 1,0", "OK"]) = (none, false) :=
  ⟨by decide, by decide, by decide, by decide,
    claim_C1_all_clear _ _ (by decide) (by decide) (by decide) (by decide)
      (Or.inl (by decide))⟩

/-- C7: when the signal-quality channel is ok but the parsed value falls
outside `[10, 99)`, the response is the 500 error `modem not connected or
weak signal`, and the reset governor is invoked exactly when the parsed
value is 99. -/
theorem claim_C7_degraded_signal (co ro : ChannelOutcome)
    (h1 : (get_csq co).2 = true)
    (h2 : ¬(10 ≤ parse_csq (pyToStr (get_csq co).1) ∧
            parse_csq (pyToStr (get_csq co).1) < 99)) :
    (modem_status co ro).1 = some ("modem not connected or weak signal", 500) ∧
    ((modem_status co ro).2 = true ↔ parse_csq (pyToStr (get_csq co).1) = 99) := by
  unfold modem_status
  rw [h1]
  simp only [Bool.true_eq_false, if_false]
  rw [if_pos h2]
  simp

/-- C7 witness: the reply `+CSQ: 99,` parses to 99, yields the degraded
response, and triggers the reset governor; the no-match sentinel 0 (garbage
reply) yields the same response without a reset. -/
theorem claim_C7_degraded_signal_witness :
    ((modem_status (ChannelOutcome.success ["+CSQ: 99,", "OK"])
        (ChannelOutcome.success ["+CREG: 1,0", "OK"])).1 =
      some ("modem not connected or weak signal", 500) ∧
     ((modem_status (ChannelOutcome.success ["+CSQ: 99,", "OK"])
        (ChannelOutcome.success ["+CREG: 1,0", "OK"])).2 = true ↔
      parse_csq (pyToStr (get_csq (ChannelOutcome.success ["+CSQ: 99,", "OK"])).1) = 99)) ∧
    (modem_status (ChannelOutcome.success ["garbage", "OK"])
        (ChannelOutcome.success ["+CREG: 1,0", "OK"])).2 = false :=
  ⟨claim_C7_degraded_signal _ _ (by decide) (by decide), by decide⟩

/-- C6: the governor reads the persisted timestamp treating a missing or
unparsable file as 0; when `now - last` does not exceed the interval it
performs no reset and the persisted last-reset value is unchanged (a
present file is untouched byte-for-byte; a missing file has merely been
created empty, still reading as 0); when `now - last` exceeds the interval
(with the device lock available) it calls `perform_reset` exactly once,
launches the reset action exactly once, and persists the later clock
reading — so the persisted value never decreases. -/
theorem claim_C6_reset_governor (interval now now2 : ℚ) (fs : FileState)
    (h0 : 0 ≤ interval) (h1 : now ≤ now2) :
    read_last FileState.missing = 0 ∧ read_last FileState.unparsable = 0 ∧
    (now - read_last fs ≤ interval →
      (reset_modem interval now now2 true fs).2 = (0, 0) ∧
      read_last (reset_modem interval now now2 true fs).1 = read_last fs ∧
      (∀ q, fs = FileState.number q →
        (reset_modem interval now now2 true fs).1 = fs)) ∧
    (interval < now - read_last fs →
      (reset_modem interval now now2 true fs).2 = (1, 1) ∧
      (reset_modem interval now now2 true fs).1 = FileState.number now2 ∧
      read_last fs ≤ read_last (reset_modem interval now now2 true fs).1) := by
  refine ⟨rfl, rfl, ?_, ?_⟩
  · intro hle
    have hcond : ¬(interval < now - read_last fs) := not_lt.mpr hle
    have hr : reset_modem interval now now2 true fs =
        (match fs with | .missing => FileState.unparsable | o => o, 0, 0) := by
      simp only [reset_modem]
      rw [if_neg hcond]
      cases fs <;> rfl
    refine ⟨by rw [hr], ?_, ?_⟩
    · rw [hr]
      cases fs <;> rfl
    · intro q hq
      subst hq
      rw [hr]
  · intro hgt
    have hr : reset_modem interval now now2 true fs =
        (FileState.number now2, 1, 1) := by
      simp only [reset_modem]
      rw [if_pos hgt]
      simp
    refine ⟨by rw [hr], by rw [hr], ?_⟩
    rw [hr]
    have hnum : read_last (FileState.number now2) = now2 := rfl
    rw [hnum]
    linarith

/-- C6 witness: the spec's own scenario — interval 300 with
`last_reset = now - 400` triggers exactly one reset and persists the new
time; `last_reset = now - 100` is a no-op. -/
theorem claim_C6_reset_governor_witness :
    (0 : ℚ) ≤ 300 ∧ (1000 : ℚ) ≤ 1000 ∧
    ((reset_modem 300 1000 1000 true (FileState.number 600)).2 = (1, 1) ∧
      (reset_modem 300 1000 1000 true (FileState.number 600)).1 =
        FileState.number 1000) ∧
    (reset_modem 300 1000 1000 true (FileState.number 900)).2 = (0, 0) := by
  have h := claim_C6_reset_governor 300 1000 1000 (FileState.number 600)
    (by norm_num) (by norm_num)
  have h' := claim_C6_reset_governor 300 1000 1000 (FileState.number 900)
    (by norm_num) (by norm_num)
  refine ⟨by norm_num, by norm_num, ?_, ?_⟩
  · have := h.2.2.2 (by norm_num [read_last])
    exact ⟨this.1, this.2.1⟩
  · exact (h'.2.2.1 (by norm_num [read_last])).1

/-- C2 counterexample: with `last = 0`, `now = 1000`, interval 300 and a
lock-acquisition timeout inside `perform_reset` (so the reset action never
runs — third component 0), `reset_modem` still overwrites the persisted
timestamp with the current time: the state changes from `number 0` to
`number 1000`, contradicting the claim that it is left unchanged. -/
theorem claim_C2_lock_timeout_counterexample :
    300 < (1000 : ℚ) - read_last (FileState.number 0) ∧
    reset_modem 300 1000 1000 false (FileState.number 0) =
      (FileState.number 1000, 1, 0) ∧
    FileState.number (1000 : ℚ) ≠ FileState.number 0 := by
  refine ⟨by norm_num [read_last], by norm_num [reset_modem, read_last], ?_⟩
  intro h
  injection h with h'
  norm_num at h'

/-- C2 (amended): when a reset is due but the reset invocation fails on the
device-lock timeout, the failure is swallowed and the reset action is not
launched, yet the persisted last-reset timestamp is still overwritten with
the current time — so the reset is NOT retried on the next health check
until the minimum interval elapses again. -/
theorem claim_C2_lock_timeout (interval now now2 : ℚ) (fs : FileState)
    (h : interval < now - read_last fs) :
    reset_modem interval now now2 false fs = (FileState.number now2, 1, 0) := by
  have hcond : now - read_last fs > interval := h
  simp [reset_modem, hcond]

/-- C2 witness: concrete instance of the amended claim. -/
theorem claim_C2_lock_timeout_witness :
    300 < (1000 : ℚ) - read_last (FileState.number 600) ∧
    reset_modem 300 1000 1000 false (FileState.number 600) =
      (FileState.number 1000, 1, 0) :=
  ⟨by norm_num [read_last],
    claim_C2_lock_timeout 300 1000 1000 (FileState.number 600)
      (by norm_num [read_last])⟩


theorem py_split_first_of_append (sep base : List Char) (hsep : sep ≠ [])
    (H : ∀ t ∈ base.tails, t ≠ [] → sep.isPrefixOf (t ++ sep) = false) :
    py_split_first sep (base ++ sep) = base := by
  induction base with
  | nil =>
    simp only [List.nil_append]
    match sep, hsep with
    | c :: cs, _ => ?_
    unfold py_split_first
    rw [if_pos]
    exact List.isPrefixOf_iff_prefix.mpr (List.prefix_refl _)
  | cons c bs ih =>
    have hguard : sep.isPrefixOf ((c :: bs) ++ sep) = false :=
      H (c :: bs) ((List.mem_tails _ _).mpr (List.suffix_refl _)) (by simp)
    have hstep : py_split_first sep ((c :: bs) ++ sep) =
        c :: py_split_first sep (bs ++ sep) := by
      rw [List.cons_append] at hguard ⊢
      simp only [py_split_first]
      rw [hguard]
      simp
    rw [hstep, ih]
    intro t ht hne
    exact H t ((List.mem_tails _ _).mpr (((List.mem_tails _ _).mp ht).trans (List.suffix_cons c bs))) hne

theorem takeWhile_middle (p : Char → Bool) (l : List Char) (y : Char) (r : List Char)
    (hl : ∀ x ∈ l, p x = true) (hy : p y = false) :
    (l ++ y :: r).takeWhile p = l := by
  induction l with
  | nil => simp [List.takeWhile_cons, hy]
  | cons c cs ih =>
    have hc : p c = true := hl c (by simp)
    simp only [List.cons_append, List.takeWhile_cons, hc, if_true]
    rw [ih (fun x hx => hl x (by simp [hx]))]

theorem py_last_component_append (a b : List Char) (hb : '/' ∉ b) :
    py_last_component (a ++ '/' :: b) = b := by
  unfold py_last_component
  have h1 : (a ++ '/' :: b).reverse = b.reverse ++ '/' :: a.reverse := by
    simp
  rw [h1]
  rw [takeWhile_middle _ _ _ _ ?hall ?hy]
  · simp
  case hall =>
    intro x hx
    have : x ∈ b := List.mem_reverse.mp hx
    simp only [ne_eq, decide_eq_true_eq]
    intro hxeq
    exact hb (hxeq ▸ this)
  case hy => simp

/-- C9: for every successful spool write, the file is created under the
unique `mkstemp` name `dir/<pfx><u>.LOCK` and renamed to that name minus the
`.LOCK` suffix (atomic publish); its content is the `From:` line, an
`Alphabet: UCS` line exactly when UCS2 encoding was chosen, the `To:` line, a
blank line, and the encoded body bytes; its mode is set to `0666` (438); the
returned message id is the final file's base name `<pfx><u>`; and distinct
`mkstemp` infixes give distinct temporary names.  The two hypotheses say the
surrounding names do not themselves contain `.LOCK` or a stray `/`. -/
theorem claim_C9_spool_write (user mobile outgoingDir pfx u : List Char) (text : String)
    (hs : '/' ∉ pfx ++ u)
    (hl : ∀ t ∈ (outgoingDir ++ '/' :: (pfx ++ u)).tails, t ≠ [] →
        lockSuffix.isPrefixOf (t ++ lockSuffix) = false) :
    (spool_one user mobile outgoingDir pfx u text).1.tmpName =
        (outgoingDir ++ '/' :: (pfx ++ u)) ++ lockSuffix ∧
    (spool_one user mobile outgoingDir pfx u text).1.finalName =
        outgoingDir ++ '/' :: (pfx ++ u) ∧
    (sms_ucs text = false →
      (spool_one user mobile outgoingDir pfx u text).1.content =
        ("From: ".toList ++ user ++ '\n' ::
          ("To: ".toList ++ mobile ++ ['\n', '\n'])).map Char.toNat ++ sms_msg text) ∧
    (sms_ucs text = true →
      (spool_one user mobile outgoingDir pfx u text).1.content =
        ("From: ".toList ++ user ++ '\n' ::
          ("Alphabet: UCS\n".toList ++ "To: ".toList ++ mobile ++
            ['\n', '\n'])).map Char.toNat ++ sms_msg text) ∧
    (spool_one user mobile outgoingDir pfx u text).1.mode = 438 ∧
    (spool_one user mobile outgoingDir pfx u text).2 = pfx ++ u ∧
    (∀ u', (spool_one user mobile outgoingDir pfx u' text).1.tmpName =
        (spool_one user mobile outgoingDir pfx u text).1.tmpName → u' = u) := by
  have htmp : (spool_one user mobile outgoingDir pfx u text).1.tmpName =
      (outgoingDir ++ '/' :: (pfx ++ u)) ++ lockSuffix := by
    simp [spool_one, List.append_assoc]
  have hfin : (spool_one user mobile outgoingDir pfx u text).1.finalName =
      outgoingDir ++ '/' :: (pfx ++ u) := by
    show py_split_first lockSuffix (outgoingDir ++ '/' :: (pfx ++ u ++ lockSuffix)) = _
    have : outgoingDir ++ '/' :: (pfx ++ u ++ lockSuffix) =
        (outgoingDir ++ '/' :: (pfx ++ u)) ++ lockSuffix := by
      simp [List.append_assoc]
    rw [this]
    exact py_split_first_of_append _ _ (by decide) hl
  refine ⟨htmp, hfin, ?_, ?_, rfl, ?_, ?_⟩
  · intro h
    simp [spool_one, smsHeader, h]
  · intro h
    simp [spool_one, smsHeader, h]
  · show py_last_component (spool_one user mobile outgoingDir pfx u text).1.finalName = _
    rw [hfin]
    exact py_last_component_append _ _ hs
  · intro u' h
    simp only [spool_one] at h
    simp only [List.append_assoc, List.append_right_inj, List.cons.injEq, true_and] at h
    exact (List.append_left_inj _).mp h


theorem write_sms_go_valid_keys
    (perms : Option (List (List Char × List (List Char))))
    (user outgoingDir pfx : List Char) (text : String) :
    ∀ (mobiles supply : List (List Char)) (p : Nat) (mv : List Char × List Char),
      mv ∈ (write_sms_go perms user outgoingDir pfx text mobiles supply p).msgIds →
      validate_mobile mv.1 = true := by
  intro mobiles
  induction mobiles with
  | nil =>
    intro supply p mv h
    simp [write_sms_go] at h
  | cons m ms ih =>
    intro supply p mv h
    by_cases hv : validate_mobile m = true
    · by_cases ha : access_mobile perms user m = true
      · simp only [write_sms_go, hv, ha, if_true] at h
        rcases List.mem_cons.mp h with h | h
        · subst h; exact hv
        · exact ih _ _ _ h
      · simp only [write_sms_go, hv, if_true, Bool.not_eq_true] at h
        rw [if_neg ha] at h
        rcases List.mem_cons.mp h with h | h
        · subst h; exact hv
        · exact ih _ _ _ h
    · simp only [write_sms_go] at h
      rw [if_neg hv] at h
      exact ih _ _ _ h

theorem write_sms_go_entries
    (perms : Option (List (List Char × List (List Char))))
    (user outgoingDir pfx : List Char) (text : String) :
    ∀ (mobiles supply : List (List Char)) (p : Nat) (m : List Char), m ∈ mobiles →
      (validate_mobile m = false →
        (m, "Not valid".toList) ∈
          (write_sms_go perms user outgoingDir pfx text mobiles supply p).topLevel) ∧
      (validate_mobile m = true → access_mobile perms user m = false →
        (m, "Forbidden".toList) ∈
          (write_sms_go perms user outgoingDir pfx text mobiles supply p).msgIds) ∧
      (validate_mobile m = true → access_mobile perms user m = true →
        ∃ id f, (m, id) ∈
            (write_sms_go perms user outgoingDir pfx text mobiles supply p).msgIds ∧
          f ∈ (write_sms_go perms user outgoingDir pfx text mobiles supply p).spooled ∧
          id = py_last_component f.finalName) := by
  intro mobiles
  induction mobiles with
  | nil => intro supply p m hm; exact absurd hm (List.not_mem_nil m)
  | cons m' ms ih =>
    intro supply p m hm
    by_cases hv : validate_mobile m' = true
    · by_cases ha : access_mobile perms user m' = true
      · have hgo : write_sms_go perms user outgoingDir pfx text (m' :: ms) supply p =
            { write_sms_go perms user outgoingDir pfx text ms supply.tail
                (sms_parts_step text p) with
              msgIds := (m', (spool_one user m' outgoingDir pfx (supply.headD []) text).2) ::
                (write_sms_go perms user outgoingDir pfx text ms supply.tail
                  (sms_parts_step text p)).msgIds,
              spooled := (spool_one user m' outgoingDir pfx (supply.headD []) text).1 ::
                (write_sms_go perms user outgoingDir pfx text ms supply.tail
                  (sms_parts_step text p)).spooled } := by
          simp only [write_sms_go, hv, ha, if_true]
        rcases List.mem_cons.mp hm with hm' | hm'
        · subst hm'
          refine ⟨fun hf => absurd hv (by simp [hf]), fun _ hf => absurd ha (by simp [hf]),
            fun _ _ => ?_⟩
          refine ⟨(spool_one user m outgoingDir pfx (supply.headD []) text).2,
            (spool_one user m outgoingDir pfx (supply.headD []) text).1, ?_, ?_, rfl⟩
          · rw [hgo]; exact List.mem_cons_self _ _
          · rw [hgo]; exact List.mem_cons_self _ _
        · obtain ⟨h1, h2, h3⟩ := ih supply.tail (sms_parts_step text p) m hm'
          refine ⟨fun hf => ?_, fun ht hf => ?_, fun ht hacc => ?_⟩
          · rw [hgo]; exact h1 hf
          · rw [hgo]; exact List.mem_cons_of_mem _ (h2 ht hf)
          · obtain ⟨id, f, hid, hfmem, hlast⟩ := h3 ht hacc
            exact ⟨id, f, by rw [hgo]; exact List.mem_cons_of_mem _ hid,
              by rw [hgo]; exact List.mem_cons_of_mem _ hfmem, hlast⟩
      · have hgo : write_sms_go perms user outgoingDir pfx text (m' :: ms) supply p =
            { write_sms_go perms user outgoingDir pfx text ms supply p with
              msgIds := (m', "Forbidden".toList) ::
                (write_sms_go perms user outgoingDir pfx text ms supply p).msgIds } := by
          simp only [write_sms_go, hv, if_true]
          rw [if_neg ha]
        rcases List.mem_cons.mp hm with hm' | hm'
        · subst hm'
          refine ⟨fun hf => absurd hv (by simp [hf]), fun _ _ => ?_,
            fun _ hacc => absurd hacc (by simp [ha])⟩
          rw [hgo]; exact List.mem_cons_self _ _
        · obtain ⟨h1, h2, h3⟩ := ih supply p m hm'
          refine ⟨fun hf => ?_, fun ht hf => ?_, fun ht hacc => ?_⟩
          · rw [hgo]; exact h1 hf
          · rw [hgo]; exact List.mem_cons_of_mem _ (h2 ht hf)
          · obtain ⟨id, f, hid, hfmem, hlast⟩ := h3 ht hacc
            exact ⟨id, f, by rw [hgo]; exact List.mem_cons_of_mem _ hid,
              by rw [hgo]; exact hfmem, hlast⟩
    · have hgo : write_sms_go perms user outgoingDir pfx text (m' :: ms) supply p =
          { write_sms_go perms user outgoingDir pfx text ms supply p with
            topLevel := (m', "Not valid".toList) ::
              (write_sms_go perms user outgoingDir pfx text ms supply p).topLevel } := by
        simp only [write_sms_go]
        rw [if_neg hv]
      rcases List.mem_cons.mp hm with hm' | hm'
      · subst hm'
        refine ⟨fun _ => ?_, fun ht _ => absurd ht hv, fun ht _ => absurd ht hv⟩
        rw [hgo]; exact List.mem_cons_self _ _
      · obtain ⟨h1, h2, h3⟩ := ih supply p m hm'
        refine ⟨fun hf => ?_, fun ht hf => ?_, fun ht hacc => ?_⟩
        · rw [hgo]; exact List.mem_cons_of_mem _ (h1 hf)
        · rw [hgo]; exact h2 ht hf
        · obtain ⟨id, f, hid, hfmem, hlast⟩ := h3 ht hacc
          exact ⟨id, f, by rw [hgo]; exact hid, by rw [hgo]; exact hfmem, hlast⟩


/-- C9 witness: a concrete spool write with directory `/out`, filename
prefix `SMS`, unique infix `x7`. -/
theorem claim_C9_spool_write_witness :
    ('/' ∉ "SMS".toList ++ "x7".toList) ∧
    (∀ t ∈ ("/out".toList ++ '/' :: ("SMS".toList ++ "x7".toList)).tails, t ≠ [] →
        lockSuffix.isPrefixOf (t ++ lockSuffix) = false) ∧
    (spool_one "alice".toList "155".toList "/out".toList "SMS".toList "x7".toList
        "hello").2 = "SMS".toList ++ "x7".toList :=
  ⟨by decide, by decide,
    (claim_C9_spool_write "alice".toList "155".toList "/out".toList "SMS".toList
      "x7".toList "hello" (by decide) (by decide)).2.2.2.2.2.1⟩

/-- C5 counterexample: for the request `{mobiles: ["15551234567", "abc"],
text: "hello"}` the validation-failure marker for `abc` does NOT appear in
the `message_id` map (its key is absent there); the code instead records it
as a top-level `result["abc"] = "Not valid"` entry (src 181 writes
`result[mobile]`, not `result['message_id'][mobile]`).  The other
destination is still processed and `parts_count` is 1. -/
theorem claim_C5_message_id_map_counterexample :
    ((write_sms none "u".toList "d".toList "SMS_".toList "hello"
        ["15551234567".toList, "abc".toList] ["x1".toList]).msgIds.lookup
      "abc".toList = none) ∧
    (("abc".toList, "Not valid".toList) ∈
      (write_sms none "u".toList "d".toList "SMS_".toList "hello"
        ["15551234567".toList, "abc".toList] ["x1".toList]).topLevel) ∧
    ((write_sms none "u".toList "d".toList "SMS_".toList "hello"
        ["15551234567".toList, "abc".toList] ["x1".toList]).msgIds.lookup
      "15551234567".toList = some "SMS_x1".toList) ∧
    (write_sms none "u".toList "d".toList "SMS_".toList "hello"
        ["15551234567".toList, "abc".toList] ["x1".toList]).parts_count = 1 := by
  decide

/-- C5 (amended): for every requested destination the outcome is recorded
keyed by that destination â a generated message id (the base name of a
spooled file) or the `Forbidden` marker in the `message_id` map, but the
`Not valid` marker for an invalid destination as a TOP-LEVEL entry of the
result, with that destination absent from the `message_id` map; one
destination's validation failure never prevents the others from being
processed (every destination of the list gets its entry). -/
theorem claim_C5_per_destination_outcomes
    (perms : Option (List (List Char × List (List Char))))
    (user outgoingDir pfx : List Char) (text : String)
    (mobiles supply : List (List Char)) (m : List Char) (hm : m ∈ mobiles) :
    (validate_mobile m = false →
      (m, "Not valid".toList) ∈
        (write_sms perms user outgoingDir pfx text mobiles supply).topLevel ∧
      ∀ v, (m, v) ∉ (write_sms perms user outgoingDir pfx text mobiles supply).msgIds) ∧
    (validate_mobile m = true → access_mobile perms user m = false →
      (m, "Forbidden".toList) ∈
        (write_sms perms user outgoingDir pfx text mobiles supply).msgIds) ∧
    (validate_mobile m = true → access_mobile perms user m = true →
      ∃ id f, (m, id) ∈
          (write_sms perms user outgoingDir pfx text mobiles supply).msgIds ∧
        f ∈ (write_sms perms user outgoingDir pfx text mobiles supply).spooled ∧
        id = py_last_component f.finalName) := by
  obtain ⟨h1, h2, h3⟩ :=
    write_sms_go_entries perms user outgoingDir pfx text mobiles supply 1 m hm
  refine ⟨fun hf => ⟨h1 hf, fun v hv => ?_⟩, h2, h3⟩
  have hval :=
    write_sms_go_valid_keys perms user outgoingDir pfx text mobiles supply 1 (m, v) hv
  simp only at hval
  rw [hf] at hval
  exact Bool.false_ne_true hval

/-- C5 witness: in the spec's own scenario the invalid destination `abc`
gets its `Not valid` marker (at top level) and the valid destination gets a
spooled message id. -/
theorem claim_C5_per_destination_outcomes_witness :
    ("abc".toList ∈ ["15551234567".toList, "abc".toList]) ∧
    validate_mobile "abc".toList = false ∧
    ("abc".toList, "Not valid".toList) ∈
      (write_sms none "u".toList "d".toList "SMS_".toList "hello"
        ["15551234567".toList, "abc".toList] ["x1".toList]).topLevel :=
  ⟨by decide, by decide,
    ((claim_C5_per_destination_outcomes none "u".toList "d".toList "SMS_".toList
      "hello" ["15551234567".toList, "abc".toList] ["x1".toList] "abc".toList
      (by decide)).1 (by decide)).1⟩


end SmsApi
